import Mathlib

/-!
Verification of the metro-scraper repository against its specification.

The two Python source files (`metro_scraper.py`, `csv_import_script.py`) are
embedded shallowly below: JSON payloads become typed structures whose optional
fields model optional keys, Python dictionaries traversed by `.values()` or
`.items()` become lists in iteration order, floats become rationals, and the
SQL statements of the import script become pure list transformations.
-/

/-! ## Python string primitives -/

/-- Lowercase one character the way Python `str.lower` does on the alphabets
this program actually handles: ASCII letters and the Cyrillic block used by
the Bulgarian nutrition labels (U+0400-U+042F map onto their lowercase
counterparts U+0450-U+045F and U+0430-U+044F). -/
def pyLowerChar (c : Char) : Char :=
  if 'A' ≤ c ∧ c ≤ 'Z' then Char.ofNat (c.toNat + 32)
  else if 0x410 ≤ c.toNat ∧ c.toNat ≤ 0x42F then Char.ofNat (c.toNat + 0x20)
  else if 0x400 ≤ c.toNat ∧ c.toNat ≤ 0x40F then Char.ofNat (c.toNat + 0x50)
  else c

/-- Python `str.lower`. -/
def pyLower (s : String) : String := ⟨s.data.map pyLowerChar⟩

/-- Substring containment on character lists, `needle in hay` in Python. -/
def pySubstr : List Char → List Char → Bool
  | hay@(_ :: t), needle => needle.isPrefixOf hay || pySubstr t needle
  | [], needle => needle.isEmpty

/-- Python `needle in hay` for strings. -/
def pyContains (hay needle : String) : Bool := pySubstr hay.data needle.data

/-- Python `hay.startswith(p)`. -/
def pyStartsWith (hay p : String) : Bool := p.data.isPrefixOf hay.data

/-- Drop leading and trailing whitespace, Python `str.strip()`. -/
def trimChars (l : List Char) : List Char :=
  ((l.dropWhile Char.isWhitespace).reverse.dropWhile Char.isWhitespace).reverse

/-- Python `str.strip()`. -/
def pyStrip (s : String) : String := ⟨trimChars s.data⟩

/-- Truthiness of an optional string: `None` and `""` are falsy in Python. -/
def pyTruthy : Option String → Bool
  | none => false
  | some s => !(s == "")

/-! ## Python float() on decimal literals -/

/-- Numeric value of a run of ASCII digits. -/
def digitsVal (l : List Char) : ℕ :=
  l.foldl (fun acc c => acc * 10 + (c.toNat - 48)) 0

/-- Parse an unsigned decimal numeral `digits`, `digits.digits`, `digits.` or
`.digits` into a rational. -/
def parseUnsigned (l : List Char) : Option ℚ :=
  let intPart := l.takeWhile (fun c => !(c == '.'))
  let rest := l.dropWhile (fun c => !(c == '.'))
  match rest with
  | [] =>
    if !intPart.isEmpty && intPart.all Char.isDigit then some (digitsVal intPart) else none
  | _ :: frac =>
    if intPart.all Char.isDigit && frac.all Char.isDigit &&
        (!intPart.isEmpty || !frac.isEmpty) then
      some ((digitsVal intPart : ℚ) + (digitsVal frac : ℚ) / ((10 : ℚ) ^ frac.length))
    else none

/-- Python `float(s)` restricted to the plain decimal forms the scraped data
carries (optional sign, digits, optional decimal point; no exponent and no
`inf`/`nan` specials, which never occur in the nutrition cells). Returns
`none` where Python raises `ValueError`. -/
def pyFloat (s : String) : Option ℚ :=
  match trimChars s.data with
  | [] => none
  | '+' :: rest => parseUnsigned rest
  | '-' :: rest => (parseUnsigned rest).map Neg.neg
  | l => parseUnsigned l

/-- Round to the nearest integer with Python's ties-to-even rule. -/
def roundHalfEven (q : ℚ) : ℤ :=
  let f := ⌊q⌋
  let r := q - f
  if r < 1/2 then f
  else if 1/2 < r then f + 1
  else if f % 2 = 0 then f else f + 1

/-- Python `round(x, 1)`: one decimal place. -/
def pyRound1 (q : ℚ) : ℚ := (roundHalfEven (q * 10) : ℚ) / 10

/-- Truthiness of an optional rational: Python treats `None` and `0.0` as
falsy. -/
def pyFalsyNum : Option ℚ → Bool
  | none => true
  | some v => v == 0

/-! ## Nutrition table model and `extract_nutritional_value` -/

/-- One cell of a nutrition row; both keys are read with `.get`, so they are
optional. -/
structure Cell where
  value : Option String := none
  unitOfMeasure : Option String := none
  deriving DecidableEq

/-- One row of the nutrition table. -/
structure NutritionRow where
  rowLabel : Option String := none
  cells : List Cell := []
  deriving DecidableEq

/-- The nutrition table; `rows` is optional because the code tests
`'rows' not in nutrition_table`. A missing-or-empty (falsy) table is
represented by `none` at the use sites. -/
structure NutritionTable where
  rows : Option (List NutritionRow) := none
  deriving DecidableEq

/-- Unit-reconciliation step of `extract_nutritional_value`: when the caller
requests a unit different from the cell's declared (lowercased) unit, the only
conversion defined is grams to milligrams (factor 1000); any other mismatch
returns the value unchanged. -/
def convertUnit (unit : Option String) (cellUnit : String) (value : ℚ) : ℚ :=
  match unit with
  | none => value
  | some u =>
    if u ≠ "" ∧ pyLower u ≠ cellUnit then
      if pyLower u = "mg" ∧ cellUnit = "g" then value * 1000 else value
    else value

/-- The keyword test of the row scan: `any(keyword in row_label for keyword
in label_keywords)` on the lowercased row label. -/
def labelMatches (keywords : List String) (row : NutritionRow) : Bool :=
  keywords.any (fun k => pyContains (pyLower (row.rowLabel.getD "")) k)

/-- The row scan of `extract_nutritional_value`: the first row whose
lowercased label contains one of the keywords and whose first cell carries a
truthy, parsable value yields that value after unit reconciliation; every
other row is passed over and the scan continues. -/
def scanRows (keywords : List String) (unit : Option String) :
    List NutritionRow → Option ℚ
  | [] => none
  | row :: rest =>
    if labelMatches keywords row then
      match row.cells with
      | [] => scanRows keywords unit rest
      | cell :: _ =>
        if pyTruthy cell.value then
          match pyFloat (cell.value.getD "") with
          | some v => some (convertUnit unit (pyLower (cell.unitOfMeasure.getD "")) v)
          | none => scanRows keywords unit rest
        else scanRows keywords unit rest
    else scanRows keywords unit rest

/-- `MetroProductScraper.extract_nutritional_value`. The `Option` on the table
models the `if not nutrition_table or 'rows' not in nutrition_table` guard. -/
def extract_nutritional_value (table : Option NutritionTable)
    (labelKeywords : List String) (unit : Option String) : Option ℚ :=
  match table with
  | none => none
  | some t =>
    match t.rows with
    | none => none
    | some rows => scanRows labelKeywords unit rows

/-! ## `convert_variant_to_article_id` -/

/-- `MetroProductScraper.convert_variant_to_article_id`: strip a 4-digit
numeric suffix when the identifier is longer than 4 characters and its last 4
characters are all digits. -/
def convert_variant_to_article_id (s : String) : String :=
  if 4 < s.length ∧ (s.data.drop (s.length - 4)).all Char.isDigit then
    ⟨s.data.take (s.length - 4)⟩
  else s

/-! ## Raw article payload model -/

/-- One entry of the `eanNumber` / `gtins` lists. -/
structure EanEntry where
  number : Option String := none
  deriving DecidableEq

/-- One leaf of an ingredient-statement feature. -/
structure FeatureLeaf where
  metaInfo : Option String := none
  label : Option String := none
  deriving DecidableEq

/-- One entry of the `features` list inside `details`. -/
structure Feature where
  featureType : Option String := none
  leafs : List FeatureLeaf := []
  deriving DecidableEq

/-- One hierarchy level of a category entry. -/
structure CatLevel where
  displayName : Option String := none
  deriving DecidableEq

/-- One entry of the bundle's `categories` list. -/
structure CatEntry where
  levels : List CatLevel := []
  deriving DecidableEq

/-- The `netPieceWeight` object inside `contentData`. -/
structure NetWeight where
  value : Option String := none
  uom : Option String := none
  deriving DecidableEq

/-- The bundle's `contentData`; `netPieceWeight` is `none` when the key is
missing or the object is empty (both are falsy in the Python guard). -/
structure ContentData where
  netPieceWeight : Option NetWeight := none
  deriving DecidableEq

/-- The `details` object of a bundle. A missing-or-empty `nutritionalTable`
(falsy in Python) is `none`. -/
structure Details where
  features : List Feature := []
  nutritionalTable : Option NutritionTable := none
  deriving DecidableEq

/-- One bundle of a variant. `details` is `none` when the key is missing or
the object is empty (both are falsy in the Python guard). -/
structure Bundle where
  eanNumber : List EanEntry := []
  gtins : List EanEntry := []
  description : Option String := none
  brandName : Option String := none
  contentData : Option ContentData := none
  categories : List CatEntry := []
  imageUrl : Option String := none
  imageUrlL : Option String := none
  details : Option Details := none
  deriving DecidableEq

/-- One variant of an article; its `bundles` dictionary becomes a list in
value order. -/
structure Variant where
  bundles : List Bundle := []
  deriving DecidableEq

/-- One raw article payload; its `variants` dictionary becomes a list in value
order. -/
structure ArticleData where
  variants : List Variant := []
  deriving DecidableEq

/-- The flat output record of the Field Extractor: the mandatory barcode and
15 optional descriptive / nutritional fields. -/
structure FlatProductRecord where
  code : String
  product_name : Option String := none
  quantity : Option String := none
  brand : Option String := none
  categories : Option String := none
  ingredients : Option String := none
  image_url : Option String := none
  nutriscore_grade : Option String := none
  energy_100g : Option ℚ := none
  fat_100g : Option ℚ := none
  saturated_fat_100g : Option ℚ := none
  proteins_100g : Option ℚ := none
  carbohydrates_100g : Option ℚ := none
  sugars_100g : Option ℚ := none
  fiber_100g : Option ℚ := none
  sodium_100g : Option ℚ := none
  deriving DecidableEq

/-- The 8 per-100g nutrition values; an empty `nutrition_data` dictionary is
the record with every field `none`. -/
structure NutritionData where
  energy_100g : Option ℚ := none
  fat_100g : Option ℚ := none
  saturated_fat_100g : Option ℚ := none
  proteins_100g : Option ℚ := none
  carbohydrates_100g : Option ℚ := none
  sugars_100g : Option ℚ := none
  fiber_100g : Option ℚ := none
  sodium_100g : Option ℚ := none
  deriving DecidableEq

/-- `MetroProductScraper.extract_ingredients`: the first feature tagged
`ingredientStatement` whose leaves yield a non-empty part list produces the
space-joined parts; otherwise the scan continues. -/
def extract_ingredients : List Feature → Option String
  | [] => none
  | f :: rest =>
    if f.featureType = some "ingredientStatement" then
      let parts := f.leafs.filterMap (fun leaf =>
        let mi := leaf.metaInfo.getD ""
        if (mi = "Contains" ∨ mi = "") ∧ pyTruthy leaf.label then
          let label := pyStrip (leaf.label.getD "")
          if label ≠ "" ∧ label ≠ "INGREDIENTS" ∧ label ≠ "(" ∧ label ≠ ")" then
            some label
          else none
        else none)
      if parts.isEmpty then extract_ingredients rest
      else some (String.intercalate " " parts)
    else extract_ingredients rest

/-- Barcode extraction inside `extract_product_data`: the `eanNumber` list, or
the `gtins` list when the former is missing or empty, contributes its first
entry's `number` field. -/
def extract_code (bundle : Bundle) : Option String :=
  let eanNumbers := if bundle.eanNumber.isEmpty then bundle.gtins else bundle.eanNumber
  match eanNumbers with
  | [] => none
  | e :: _ => e.number

/-- The list of keyword substrings used for the energy row. -/
def energyKeywords : List String := ["енергийна стойност"]

/-- The kJ fallback branch of `extract_product_data`: re-run the energy lookup
requesting `kJ` and, when it yields a truthy value, divide by 4.184 and round
to one decimal place; otherwise keep the previous energy value `e`. -/
def energyFallback (table : Option NutritionTable) (e : Option ℚ) : Option ℚ :=
  match extract_nutritional_value table energyKeywords (some "kJ") with
  | some v => if v = 0 then e else some (pyRound1 (v / (4.184 : ℚ)))
  | none => e

/-- The energy field computation of `extract_product_data`: the `kcal` lookup,
then the kJ fallback branch whenever that lookup produced a falsy value
(`None` or `0.0`). -/
def computeEnergy (table : Option NutritionTable) : Option ℚ :=
  let e := extract_nutritional_value table energyKeywords (some "kcal")
  if pyFalsyNum e then energyFallback table e else e

/-- The `nutrition_data` dictionary of `extract_product_data`: populated only
when `details` and its `nutritionalTable` are truthy. -/
def computeNutrition (detailsOpt : Option Details) : NutritionData :=
  match detailsOpt with
  | none => {}
  | some d =>
    match d.nutritionalTable with
    | none => {}
    | some nt =>
      { energy_100g := computeEnergy (some nt)
        fat_100g := extract_nutritional_value (some nt) ["мазнини"] (some "g")
        saturated_fat_100g := extract_nutritional_value (some nt) ["наситени"] (some "g")
        proteins_100g := extract_nutritional_value (some nt) ["белтъци"] (some "g")
        carbohydrates_100g := extract_nutritional_value (some nt) ["въглехидрати"] (some "g")
        sugars_100g := extract_nutritional_value (some nt) ["захари"] (some "g")
        fiber_100g := extract_nutritional_value (some nt) ["влакна", "fiber"] (some "g")
        sodium_100g := extract_nutritional_value (some nt) ["sodium"] (some "mg") }

/-- `MetroProductScraper.extract_product_data`. Rejection (`none`) occurs when
the variants list is empty, the first variant's bundles list is empty, or no
truthy barcode is obtainable. The Python `try/except` guard only intercepts
dynamic-typing errors, which the typed payload model makes unrepresentable;
the embedding is a total function. -/
def extract_product_data (a : ArticleData) : Option FlatProductRecord :=
  match a.variants with
  | [] => none
  | variant :: _ =>
    match variant.bundles with
    | [] => none
    | bundle :: _ =>
      match extract_code bundle with
      | none => none
      | some code =>
        if code = "" then none
        else
          let productName := bundle.description.getD ""
          let brand := bundle.brandName.getD ""
          let quantity : Option String :=
            match bundle.contentData with
            | none => none
            | some cd =>
              match cd.netPieceWeight with
              | none => none
              | some nw =>
                match nw.value with
                | none => none
                | some v =>
                  if v = "" then none
                  else some (pyStrip (v ++ " " ++ nw.uom.getD ""))
          let categoryParts := bundle.categories.filterMap (fun cat =>
            if cat.levels.isEmpty then none
            else
              let levelNames := cat.levels.filterMap (fun lv =>
                lv.displayName.bind (fun d => if d = "" then none else some d))
              if levelNames.isEmpty then none
              else some (String.intercalate " > " levelNames))
          let categoriesStr : Option String :=
            if categoryParts.isEmpty then none
            else some (String.intercalate " | " categoryParts)
          let imageUrl : Option String :=
            match bundle.imageUrl with
            | some s => if s = "" then bundle.imageUrlL else some s
            | none => bundle.imageUrlL
          let ingredients : Option String :=
            match bundle.details with
            | none => none
            | some d => extract_ingredients d.features
          let nutrition := computeNutrition bundle.details
          some
            { code := code
              product_name := if productName = "" then none else some productName
              quantity := quantity
              brand := if brand = "" then none else some brand
              categories := categoriesStr
              ingredients := ingredients
              image_url := imageUrl
              nutriscore_grade := none
              energy_100g := nutrition.energy_100g
              fat_100g := nutrition.fat_100g
              saturated_fat_100g := nutrition.saturated_fat_100g
              proteins_100g := nutrition.proteins_100g
              carbohydrates_100g := nutrition.carbohydrates_100g
              sugars_100g := nutrition.sugars_100g
              fiber_100g := nutrition.fiber_100g
              sodium_100g := nutrition.sodium_100g }

/-! ## Category tree model and `get_food_subcategories` -/

mutual
/-- One node of the retailer's category tree: its `urlCategoryPath` (read with
`.get`, so optional) and its `children` dictionary in iteration order; a node
without a `children` key is a node with no children. -/
inductive CategoryNode where
  | mk (urlCategoryPath : Option String) (children : ChildMap)

/-- The `children` dictionary of a tree node as an ordered list of
identifier / node pairs. -/
inductive ChildMap where
  | nil
  | cons (categoryId : String) (node : CategoryNode) (rest : ChildMap)
end

/-- The node's `urlCategoryPath` field. -/
def CategoryNode.path : CategoryNode → Option String
  | .mk p _ => p

/-- The node's `children` field. -/
def CategoryNode.children : CategoryNode → ChildMap
  | .mk _ c => c

/-- Dictionary lookup `children.get(key, {})` on a child map; `none` stands
for the default empty dictionary. -/
def ChildMap.lookupId : ChildMap → String → Option CategoryNode
  | .nil, _ => none
  | .cons k n rest, key => if k = key then some n else rest.lookupId key

mutual
/-- The recursive `extract_categories` helper of `get_food_subcategories`
applied to one node: walk its children in order. -/
def collectNode : CategoryNode → List String
  | .mk _ children => collectChildren children

/-- The loop body of `extract_categories`: for each child whose
`urlCategoryPath` is truthy and starts with the root prefix, append that path
and recurse into the child; otherwise skip it and do not recurse. -/
def collectChildren : ChildMap → List String
  | .nil => []
  | .cons _ node rest =>
    (if node.path.getD "" ≠ "" ∧
        pyStartsWith (node.path.getD "") "хранителни-стоки" then
      node.path.getD "" :: collectNode node
    else [])
      ++ collectChildren rest
end

/-- The category-tree part of the discovery response. Its `children` key may
be absent: the code reads `response['categorytree']['children']` without any
guard, so a categorytree without that key raises an uncaught KeyError (the
child nodes below it, by contrast, are guarded by `'children' in
tree_node`). -/
structure CategoryTree where
  children : Option ChildMap := none

/-- The discovery response as `get_food_subcategories` reads it; the whole
response is `none` when the request failed. -/
structure TreeResponse where
  categorytree : Option CategoryTree := none

/-- The category list accumulated by `get_food_subcategories` before its
fallback: nothing when the response is missing or carries no `categorytree`;
an uncaught KeyError (an error result) when the categorytree lacks its
`children` dictionary; otherwise the recursive collection over the
`Food_1622788118100` subtree (the empty default dictionary when that key is
absent). -/
def collectedCategories (resp : Option TreeResponse) :
    Except String (List String) :=
  match resp with
  | none => .ok []
  | some r =>
    match r.categorytree with
    | none => .ok []
    | some tree =>
      match tree.children with
      | none => .error "KeyError: children"
      | some children =>
        match children.lookupId "Food_1622788118100" with
        | some food => .ok (collectNode food)
        | none => .ok (collectNode (.mk none .nil))

/-- `MetroProductScraper.get_food_subcategories`: collect every category path
under the `Food_1622788118100` subtree that starts with the root prefix, and
fall back to the single root category when nothing was collected; the
uncaught KeyError of the unguarded top-level `children` access propagates to
the caller. -/
def get_food_subcategories (resp : Option TreeResponse) :
    Except String (List String) :=
  match collectedCategories resp with
  | .error e => .error e
  | .ok categories =>
    .ok (if categories = [] then ["хранителни-стоки"] else categories)

/-! ## Identifier paginator -/

/-- One page response of the search endpoint: the optional `resultIds` list
(`none` when the key is missing) and the optional declared `totalPages`. -/
structure PageResponse where
  resultIds : Option (List String) := none
  totalPages : Option Nat := none

/-- The `while True` loop of `get_product_variant_ids_from_category`, with the
API as a function from page number to optional response and an explicit
iteration budget. The loop breaks no later than at page 100, so the budget
`fuel = 101 - page` is never exhausted; the `fuel = 0` branch is unreachable
from the entry point below. Each iteration first records the requested page,
then breaks on a missing response, a missing `resultIds` key, or an empty
identifier list, and otherwise accumulates the identifiers into the set and
breaks when the page counter reaches the declared total page count or the
absolute safety bound of 100. -/
def paginateGo (api : ℕ → Option PageResponse) :
    ℕ → ℕ → Finset String → List ℕ → Finset String × List ℕ
  | 0, _, acc, reqs => (acc, reqs)
  | fuel + 1, page, acc, reqs =>
    let reqs' := reqs ++ [page]
    match api page with
    | none => (acc, reqs')
    | some r =>
      match r.resultIds with
      | none => (acc, reqs')
      | some ids =>
        if ids.isEmpty then (acc, reqs')
        else
          let acc' := acc ∪ ids.toFinset
          if r.totalPages.getD 1 ≤ page ∨ 100 ≤ page then (acc', reqs')
          else paginateGo api fuel (page + 1) acc' reqs'

/-- `MetroProductScraper.get_product_variant_ids_from_category` for one
category, returning the accumulated identifier set together with the list of
page numbers that were requested. -/
def get_product_variant_ids_from_category (api : ℕ → Option PageResponse) :
    Finset String × List ℕ :=
  paginateGo api 100 1 ∅ []

/-! ## Bulk loader (`import_csv_to_metro_source`) -/

/-- The effect of `DELETE FROM public.metro_source`. -/
def clearTable (_t : List FlatProductRecord) : List FlatProductRecord := []

/-- The row-wise effect of the `INSERT ... ON CONFLICT (code) DO UPDATE`
statement: a row whose natural key already exists overwrites every non-key
field of the existing row (i.e. replaces it), otherwise the row is
appended. -/
def upsertRow (t : List FlatProductRecord) (r : FlatProductRecord) :
    List FlatProductRecord :=
  if t.any (fun x => x.code == r.code) then
    t.map (fun x => if x.code = r.code then r else x)
  else t ++ [r]

/-- `SimpleMetroImporter.import_csv_to_metro_source` on a successful run:
clear the destination table, then upsert every supplied record in order. The
records are executed in fixed-size batches in the source; since the batches
partition the record list in order, the sequential row-wise upserts equal a
single fold over all records (batch boundaries only affect commit points on
failure). -/
def import_csv_to_metro_source (prev records : List FlatProductRecord) :
    List FlatProductRecord :=
  records.foldl upsertRow (clearTable prev)

/-- Row lookup by natural key in the destination table. -/
def findCode (t : List FlatProductRecord) (c : String) : Option FlatProductRecord :=
  t.find? (fun r => r.code == c)

/-- The natural keys of a table, in row order. -/
def codesOf (t : List FlatProductRecord) : List String := t.map (fun r => r.code)

/-! ## Registry reconciler (`update_food_item_sources`) -/

/-- One row of the `food_item_sources` registry: a natural key and its
array-of-source-tags column. -/
structure RegistryRow where
  code : String
  sources : List String
  deriving DecidableEq

/-- The `UPDATE ... SET sources = array_append(sources, 'metro') WHERE EXISTS
(... metro_source m WHERE m.code = food_item_sources.code) AND NOT ('metro' =
ANY (sources))` statement, with the destination table abstracted to its list
of codes. -/
def tagExistingRows (destCodes : List String) (reg : List RegistryRow) :
    List RegistryRow :=
  reg.map fun row =>
    if row.code ∈ destCodes ∧ "metro" ∉ row.sources then
      { row with sources := row.sources ++ ["metro"] }
    else row

/-- The `INSERT INTO food_item_sources (code, sources) SELECT m.code,
ARRAY['metro'] FROM metro_source m WHERE NOT EXISTS (...)` statement. -/
def insertNewRows (destCodes : List String) (reg : List RegistryRow) :
    List RegistryRow :=
  reg ++ (destCodes.filter fun c => decide (∀ row ∈ reg, row.code ≠ c)).map
    (fun c => { code := c, sources := ["metro"] })

/-- `SimpleMetroImporter.update_food_item_sources` on a successful run: tag
existing rows first, then insert rows for destination codes with no registry
row. -/
def update_food_item_sources (destCodes : List String) (reg : List RegistryRow) :
    List RegistryRow :=
  insertNewRows destCodes (tagExistingRows destCodes reg)

/-! ## Claim C7: spec reading and amended form of the row scan -/

/-- Claim C7's reading of `extract_nutritional_value`: select the first row by
label match alone and return the numeric value of its first cell (after unit
reconciliation), absent when no row's label matches or that single row has no
usable first cell. Compared against the source function below. -/
def extract_nutritional_value_claimC7 (table : Option NutritionTable)
    (labelKeywords : List String) (unit : Option String) : Option ℚ :=
  match table with
  | none => none
  | some t =>
    match t.rows with
    | none => none
    | some rows =>
      match rows.find? (labelMatches labelKeywords) with
      | none => none
      | some row =>
        match row.cells with
        | [] => none
        | cell :: _ =>
          match pyFloat (cell.value.getD "") with
          | none => none
          | some v => some (convertUnit unit (pyLower (cell.unitOfMeasure.getD "")) v)

/-- The amended selection predicate: the row's label matches AND its first
cell exists, is truthy, and parses as a number. -/
def rowYields (keywords : List String) (row : NutritionRow) : Bool :=
  labelMatches keywords row &&
    match row.cells with
    | [] => false
    | cell :: _ => pyTruthy cell.value && (pyFloat (cell.value.getD "")).isSome

/-- The amended form of claim C7: the first row selected by `rowYields`
supplies the value. -/
def extract_nutritional_value_amendedC7 (table : Option NutritionTable)
    (labelKeywords : List String) (unit : Option String) : Option ℚ :=
  match table with
  | none => none
  | some t =>
    match t.rows with
    | none => none
    | some rows =>
      match rows.find? (rowYields labelKeywords) with
      | none => none
      | some row =>
        match row.cells with
        | [] => none
        | cell :: _ =>
          match pyFloat (cell.value.getD "") with
          | none => none
          | some v => some (convertUnit unit (pyLower (cell.unitOfMeasure.getD "")) v)

/-- The row scan equals the first-row-selected-by-`rowYields` formulation. -/
theorem scanRows_eq_find (kw : List String) (u : Option String)
    (rows : List NutritionRow) :
    scanRows kw u rows =
      match rows.find? (rowYields kw) with
      | none => none
      | some row =>
        match row.cells with
        | [] => none
        | cell :: _ =>
          match pyFloat (cell.value.getD "") with
          | none => none
          | some v => some (convertUnit u (pyLower (cell.unitOfMeasure.getD "")) v) := by
  induction rows with
  | nil => rfl
  | cons row rest ih =>
    by_cases hm : labelMatches kw row = true
    · cases hc : row.cells with
      | nil =>
        have hy : ¬rowYields kw row = true := by
          simp [rowYields, hc]
        rw [List.find?_cons_of_neg _ hy]
        simp only [scanRows, hm, if_true, hc]
        exact ih
      | cons cell cs =>
        by_cases ht : pyTruthy cell.value = true
        · cases hp : pyFloat (cell.value.getD "") with
          | none =>
            have hy : ¬rowYields kw row = true := by
              simp [rowYields, hc, hm, ht, hp]
            rw [List.find?_cons_of_neg _ hy]
            simp only [scanRows, hm, if_true, hc, ht, hp]
            exact ih
          | some v =>
            have hy : rowYields kw row = true := by
              simp [rowYields, hc, hm, ht, hp]
            rw [List.find?_cons_of_pos _ hy]
            simp only [scanRows, hm, if_true, hc, ht, hp]
        · have hy : ¬rowYields kw row = true := by
            simp [rowYields, hc, ht]
          rw [List.find?_cons_of_neg _ hy]
          simp only [Bool.not_eq_true] at ht
          simp only [scanRows, hm, if_true, hc, ht]
          exact ih
    · have hy : ¬rowYields kw row = true := by
        simp [rowYields, hm]
      rw [List.find?_cons_of_neg _ hy]
      simp only [Bool.not_eq_true] at hm
      simp only [scanRows, hm, if_false]
      exact ih

/-- A nutrition table whose first fat-labeled row carries an empty first-cell
value and whose second fat-labeled row carries the value 5. -/
def c7Table : NutritionTable :=
  { rows := some
      [ { rowLabel := some "мазнини"
          cells := [{ value := some "", unitOfMeasure := some "g" }] }
      , { rowLabel := some "мазнини"
          cells := [{ value := some "5", unitOfMeasure := some "g" }] } ] }

/-- C7 counterexample: on `c7Table` the source function skips the first
keyword-matching row (its first cell value is empty) and returns the second
row's value 5, while the claim's first-matching-row-by-label reading yields
absent. -/
theorem c7_counterexample :
    extract_nutritional_value (some c7Table) ["мазнини"] (some "g") = some 5 ∧
    extract_nutritional_value_claimC7 (some c7Table) ["мазнини"] (some "g") = none := by
  constructor <;> decide

/-- C7 (amended): `extract_nutritional_value` returns the numeric value of the
first cell of the first row whose lowercased label contains one of the
keywords and whose first cell carries a non-empty, parsable numeric value, and
absent when no such row exists (rows whose label matches but whose first cell
is missing, empty, or unparsable are passed over). -/
theorem c7_first_usable_matching_row (table : Option NutritionTable)
    (kw : List String) (u : Option String) :
    extract_nutritional_value table kw u =
      extract_nutritional_value_amendedC7 table kw u := by
  cases table with
  | none => rfl
  | some t =>
    cases ht : t.rows with
    | none =>
      simp [extract_nutritional_value, extract_nutritional_value_amendedC7, ht]
    | some rows =>
      simp only [extract_nutritional_value, extract_nutritional_value_amendedC7, ht]
      exact scanRows_eq_find kw u rows

/-- C6: in `extract_nutritional_value`'s unit reconciliation the only
conversion ever applied is grams to milligrams (multiply by 1000, exactly when
the requested unit lowercases to `mg` and the cell's lowercased unit is `g`);
under every other unit mismatch the cell's numeric value is returned
unconverted. -/
theorem c6_only_gram_to_milligram (u : Option String) (cu : String) (v : ℚ) :
    convertUnit u cu v =
      if pyLower (u.getD "") = "mg" ∧ cu = "g" then v * 1000 else v := by
  cases u with
  | none =>
    have h : ¬(pyLower "" = "mg" ∧ cu = "g") := by
      rintro ⟨h1, -⟩
      exact absurd h1 (by decide)
    simp only [convertUnit, Option.getD]
    rw [if_neg h]
  | some s =>
    simp only [convertUnit, Option.getD]
    by_cases hB : pyLower s = "mg" ∧ cu = "g"
    · have hs : s ≠ "" := by
        intro he
        rw [he] at hB
        exact absurd hB.1 (by decide)
      have hne : pyLower s ≠ cu := by
        rw [hB.1, hB.2]
        decide
      rw [if_pos ⟨hs, hne⟩, if_pos hB]
    · rw [if_neg hB]
      by_cases hA : s ≠ "" ∧ pyLower s ≠ cu
      · rw [if_pos hA]
      · rw [if_neg hA]

/-- C2: for every variant identifier longer than 4 characters whose last 4
characters are all digits, `convert_variant_to_article_id` strips exactly
those 4 trailing characters; for every other identifier it is the identity. -/
theorem c2_variant_suffix_truncation (s : String) :
    (4 < s.length → (s.data.drop (s.length - 4)).all Char.isDigit = true →
      convert_variant_to_article_id s = ⟨s.data.take (s.length - 4)⟩) ∧
    (¬(4 < s.length ∧ (s.data.drop (s.length - 4)).all Char.isDigit = true) →
      convert_variant_to_article_id s = s) := by
  constructor
  · intro h1 h2
    simp only [convert_variant_to_article_id]
    rw [if_pos ⟨h1, h2⟩]
  · intro h
    simp only [convert_variant_to_article_id]
    rw [if_neg h]

/-- C2 witness: the two spec examples, obtained from the theorem at concrete
inputs. -/
theorem c2_variant_suffix_truncation_witness :
    convert_variant_to_article_id "BTY-X2945500032" = "BTY-X294550" ∧
    convert_variant_to_article_id "AB12" = "AB12" := by
  constructor
  · exact ((c2_variant_suffix_truncation "BTY-X2945500032").1
      (by decide) (by decide)).trans (by decide)
  · exact (c2_variant_suffix_truncation "AB12").2 (by decide)

/-! ## Concrete articles for the energy and rejection claims -/

/-- A bundle carrying the barcode 5901234123457 and the given `details`. -/
def barcodeBundle (d : Option Details) : Bundle :=
  { eanNumber := [{ number := some "5901234123457" }], details := d }

/-- An article whose single variant holds a single barcode bundle with the
given `details`. -/
def articleWith (d : Option Details) : ArticleData :=
  { variants := [{ bundles := [barcodeBundle d] }] }

/-- An energy row declared in kcal with value 250. -/
def kcalRow : NutritionRow :=
  { rowLabel := some "Енергийна стойност"
    cells := [{ value := some "250", unitOfMeasure := some "kcal" }] }

/-- An energy row declared in kJ with value 1046. -/
def kjRow : NutritionRow :=
  { rowLabel := some "Енергийна стойност"
    cells := [{ value := some "1046", unitOfMeasure := some "kJ" }] }

/-- The article whose nutrition table holds only the kcal energy row. -/
def c1ArticleKcal : ArticleData :=
  articleWith (some { nutritionalTable := some { rows := some [kcalRow] } })

/-- The article whose nutrition table holds only the kJ energy row. -/
def c1ArticleKJ : ArticleData :=
  articleWith (some { nutritionalTable := some { rows := some [kjRow] } })

/-- C1: the kcal scenario extracts `energy_100g = 250` as claimed, but the
kJ-only scenario extracts the raw kJ value 1046 instead of the claimed
`round(1046/4.184, 1) = 250`: the keyword match in
`extract_nutritional_value` ignores the requested unit, so a kJ row already
satisfies the `kcal` lookup and the kJ fallback branch never fires with a
fresh value. The last two conjuncts record that the claimed conversion would
give 250, which differs from what the code returns. -/
theorem c1_kj_fallback_dead :
    (extract_product_data c1ArticleKcal).map (fun r => r.energy_100g)
      = some (some 250) ∧
    (extract_product_data c1ArticleKJ).map (fun r => r.energy_100g)
      = some (some 1046) ∧
    pyRound1 ((1046 : ℚ) / (4.184 : ℚ)) = 250 ∧ (1046 : ℚ) ≠ 250 := by
  refine ⟨by decide, by decide, ?_, by norm_num⟩
  have h : (1046 : ℚ) / 4.184 = 250 := by norm_num
  rw [h]
  show (↑(roundHalfEven ((250 : ℚ) * 10)) : ℚ) / 10 = 250
  have h10 : (250 : ℚ) * 10 = ((2500 : ℤ) : ℚ) := by norm_num
  rw [h10]
  rw [show roundHalfEven ((2500 : ℤ) : ℚ) = 2500 from by
    unfold roundHalfEven
    rw [Int.floor_intCast]
    norm_num]
  norm_num

/-! ## Claim C4: rejection conditions and the bare-barcode record -/

/-- An article with an empty variants collection. -/
def c4NoVariants : ArticleData := { variants := [] }

/-- A variant with an empty bundles collection. -/
def c4EmptyVariant : Variant := { bundles := [] }

/-- An article whose first variant has an empty bundles collection. -/
def c4NoBundles : ArticleData := { variants := [c4EmptyVariant] }

/-- A bundle with neither EAN nor GTIN entries. -/
def c4NoBarcodeBundle : Bundle := {}

/-- A variant whose single bundle yields no barcode. -/
def c4NoBarcodeVariant : Variant := { bundles := [c4NoBarcodeBundle] }

/-- An article whose first bundle yields no barcode. -/
def c4NoBarcode : ArticleData := { variants := [c4NoBarcodeVariant] }

/-- The barcode-only article: no details, hence no nutrition table. -/
def c4Article : ArticleData := articleWith none

/-- The expected flat record for `c4Article`: `code` populated and every
other field, the 8 nutrition fields included, absent. -/
def c4Expected : FlatProductRecord := { code := "5901234123457" }

/-- C4: `extract_product_data` rejects an article when the variants collection
is empty, when the first variant's bundles collection is empty, or when no
truthy barcode is obtainable from the EAN/GTIN lists; and the record whose
bundle carries barcode 5901234123457 but no nutrition table yields a flat
record with `code` populated and all 8 nutrition fields absent. (The Python
`except` clause only intercepts dynamic-typing errors, which the typed model
makes unrepresentable: the embedded extractor is total and returns `none` on
every rejection.) -/
theorem c4_rejections_and_bare_record :
    (∀ a : ArticleData, a.variants = [] → extract_product_data a = none) ∧
    (∀ (a : ArticleData) (v : Variant) (vs : List Variant),
      a.variants = v :: vs → v.bundles = [] → extract_product_data a = none) ∧
    (∀ (a : ArticleData) (v : Variant) (vs : List Variant) (b : Bundle)
      (bs : List Bundle),
      a.variants = v :: vs → v.bundles = b :: bs →
      pyTruthy (extract_code b) = false → extract_product_data a = none) ∧
    extract_product_data c4Article = some c4Expected := by
  refine ⟨?_, ?_, ?_, by decide⟩
  · intro a h
    simp [extract_product_data, h]
  · intro a v vs h1 h2
    simp [extract_product_data, h1, h2]
  · intro a v vs b bs h1 h2 h3
    cases hcode : extract_code b with
    | none => simp [extract_product_data, h1, h2, hcode]
    | some c =>
      have hc : c = "" := by
        rw [hcode] at h3
        simpa [pyTruthy] using h3
      simp [extract_product_data, h1, h2, hcode, hc]

/-- C4 witness: the three rejection conditions at concrete articles. -/
theorem c4_rejections_witness :
    extract_product_data c4NoVariants = none ∧
    extract_product_data c4NoBundles = none ∧
    extract_product_data c4NoBarcode = none :=
  ⟨c4_rejections_and_bare_record.1 c4NoVariants rfl,
   c4_rejections_and_bare_record.2.1 c4NoBundles c4EmptyVariant [] rfl rfl,
   c4_rejections_and_bare_record.2.2.1 c4NoBarcode
     c4NoBarcodeVariant [] c4NoBarcodeBundle [] rfl rfl (by decide)⟩

/-! ## Claim C10: falsy-value handling -/

/-- A row whose label matches the keyword list below but whose first cell
value is empty. -/
def c10EmptyValueRow : NutritionRow :=
  { rowLabel := some "x", cells := [{ value := some "" }] }

/-- An energy row carrying the value 0 in kcal. -/
def c10ZeroRow : NutritionRow :=
  { rowLabel := some "енергийна стойност"
    cells := [{ value := some "0", unitOfMeasure := some "kcal" }] }

/-- A table whose only energy row carries the value 0 in kcal. -/
def c10ZeroTable : Option NutritionTable :=
  some { rows := some [c10ZeroRow] }

/-- C10: zero and empty nutrition values are treated as absent: a row whose
first cell value is missing or empty never supplies the result (the scan
continues with the later rows), and the energy computation takes the kJ
fallback branch whenever the kcal lookup yields exactly 0, not only when it
yields no value at all. -/
theorem c10_zero_and_empty_are_absent :
    (∀ (kw : List String) (u : Option String) (row : NutritionRow)
      (rest : List NutritionRow) (cell : Cell) (cs : List Cell),
      row.cells = cell :: cs → (cell.value = none ∨ cell.value = some "") →
      scanRows kw u (row :: rest) = scanRows kw u rest) ∧
    (∀ nt : Option NutritionTable,
      extract_nutritional_value nt energyKeywords (some "kcal") = some 0 →
      computeEnergy nt = energyFallback nt (some 0)) := by
  constructor
  · intro kw u row rest cell cs hc hv
    have ht : pyTruthy cell.value = false := by
      rcases hv with h | h <;> rw [h] <;> rfl
    simp only [scanRows, hc, ht]
    cases hm : labelMatches kw row <;> simp [hm, ht]
  · intro nt h
    unfold computeEnergy
    rw [h]
    simp [pyFalsyNum]

/-- C10 witness: the empty-value row is skipped and the zero-kcal table takes
the fallback branch, both at concrete inputs. -/
theorem c10_zero_and_empty_witness :
    scanRows ["x"] none [c10EmptyValueRow] = scanRows ["x"] none [] ∧
    computeEnergy c10ZeroTable = energyFallback c10ZeroTable (some 0) :=
  ⟨c10_zero_and_empty_are_absent.1 ["x"] none c10EmptyValueRow []
      { value := some "" } [] rfl (Or.inr rfl),
   c10_zero_and_empty_are_absent.2 c10ZeroTable (by decide)⟩

/-! ## Claim C5: every discovered category descends from the root -/

mutual
/-- Every path collected from a node starts with the root prefix. -/
theorem collectNode_rooted (n : CategoryNode) :
    ∀ p ∈ collectNode n, pyStartsWith p "хранителни-стоки" = true := by
  cases n with
  | mk path children =>
    intro p hp
    exact collectChildren_rooted children p hp

/-- Every path collected from a child map starts with the root prefix. -/
theorem collectChildren_rooted (l : ChildMap) :
    ∀ p ∈ collectChildren l, pyStartsWith p "хранителни-стоки" = true := by
  cases l with
  | nil => intro p hp; cases hp
  | cons k node rest =>
    intro p hp
    simp only [collectChildren, List.mem_append] at hp
    rcases hp with hp | hp
    · by_cases hg : node.path.getD "" ≠ "" ∧
        pyStartsWith (node.path.getD "") "хранителни-стоки" = true
      · rw [if_pos hg] at hp
        rcases List.mem_cons.mp hp with rfl | hp
        · exact hg.2
        · exact collectNode_rooted node p hp
      · rw [if_neg hg] at hp
        cases hp
    · exact collectChildren_rooted rest p hp
end

/-- Every path in a successfully collected category list starts with the
root prefix. -/
theorem collected_rooted (resp : Option TreeResponse) (cats : List String)
    (h : collectedCategories resp = .ok cats) :
    ∀ p ∈ cats, pyStartsWith p "хранителни-стоки" = true := by
  unfold collectedCategories at h
  split at h
  · injection h with h
    subst h
    intro p hp
    cases hp
  · split at h
    · injection h with h
      subst h
      intro p hp
      cases hp
    · split at h
      · exact Except.noConfusion h
      · split at h
        · injection h with h
          subst h
          exact collectNode_rooted _
        · injection h with h
          subst h
          exact collectNode_rooted _

/-- A categorytree object that lacks its `children` dictionary. -/
def c5MalformedTree : CategoryTree := {}

/-- A discovery response that passes the `'categorytree' in response` guard
but whose categorytree lacks the `children` key. -/
def c5MalformedResponse : TreeResponse := { categorytree := some c5MalformedTree }

/-- C5 counterexample: on the response whose categorytree lacks its
`children` dictionary, `get_food_subcategories` does not return the claimed
single-element fallback — the unguarded `response['categorytree']['children']`
access raises an uncaught KeyError, so the call produces an error result
instead of any list. -/
theorem c5_counterexample :
    get_food_subcategories (some c5MalformedResponse)
      = .error "KeyError: children" ∧
    get_food_subcategories (some c5MalformedResponse)
      ≠ .ok ["хранителни-стоки"] := by
  constructor
  · rfl
  · intro h
    exact Except.noConfusion
      ((rfl : get_food_subcategories (some c5MalformedResponse)
        = .error "KeyError: children").symm.trans h)

/-- C5 (amended): every successful result of `get_food_subcategories` is a
non-empty list in which each path starts with the root prefix; whenever the
tree walk succeeded with zero collected paths (missing response, missing
`categorytree`, or no qualifying children) the result is exactly the single
root category; but on a response whose categorytree lacks its `children`
dictionary the function returns no list at all — the unguarded access raises
an uncaught KeyError. -/
theorem c5_subcategories_amended (resp : Option TreeResponse) :
    (∀ cats, get_food_subcategories resp = .ok cats →
      cats ≠ [] ∧ ∀ p ∈ cats, pyStartsWith p "хранителни-стоки" = true) ∧
    (collectedCategories resp = .ok [] →
      get_food_subcategories resp = .ok ["хранителни-стоки"]) ∧
    (∀ (r : TreeResponse) (tree : CategoryTree), resp = some r →
      r.categorytree = some tree → tree.children = none →
      get_food_subcategories resp = .error "KeyError: children") := by
  refine ⟨?_, ?_, ?_⟩
  · intro cats h
    unfold get_food_subcategories at h
    split at h
    · exact Except.noConfusion h
    · rename_i cs hc
      injection h with h
      subst h
      by_cases hcs : cs = []
      · rw [if_pos hcs]
        refine ⟨by simp, ?_⟩
        intro p hp
        rcases List.mem_singleton.mp hp with rfl
        decide
      · rw [if_neg hcs]
        exact ⟨hcs, collected_rooted resp cs hc⟩
  · intro h
    unfold get_food_subcategories
    rw [h]
    rfl
  · intro r tree h1 h2 h3
    subst h1
    simp only [get_food_subcategories, collectedCategories, h2, h3]

/-- C5 witness: the missing-response input exercises the fallback and the
non-empty/rooted conjunct, and the malformed categorytree exercises the
KeyError conjunct, all through the theorem at concrete inputs. -/
theorem c5_subcategories_amended_witness :
    (["хранителни-стоки"] ≠ [] ∧
      ∀ p ∈ ["хранителни-стоки"], pyStartsWith p "хранителни-стоки" = true) ∧
    get_food_subcategories none = .ok ["хранителни-стоки"] ∧
    get_food_subcategories (some c5MalformedResponse)
      = .error "KeyError: children" :=
  ⟨(c5_subcategories_amended none).1 ["хранителни-стоки"] rfl,
   (c5_subcategories_amended none).2.1 rfl,
   (c5_subcategories_amended (some c5MalformedResponse)).2.2 c5MalformedResponse
     c5MalformedTree rfl rfl rfl⟩

/-! ## Claim C3: the pagination scenario and the safety bound -/

/-- The first mocked page: identifiers a1, a2, declared total 3. -/
def mockPage1 : PageResponse := { resultIds := some ["a1", "a2"], totalPages := some 3 }

/-- The second mocked page: identifiers b1, b2, declared total 3. -/
def mockPage2 : PageResponse := { resultIds := some ["b1", "b2"], totalPages := some 3 }

/-- The third mocked page: identifiers c1, c2, declared total 3. -/
def mockPage3 : PageResponse := { resultIds := some ["c1", "c2"], totalPages := some 3 }

/-- The mocked API of the C3 scenario: two fresh identifiers on each of pages
1-3, a declared total of 3 pages, and no response anywhere else. -/
def mockApi3 (page : ℕ) : Option PageResponse :=
  if page = 1 then some mockPage1
  else if page = 2 then some mockPage2
  else if page = 3 then some mockPage3
  else none

/-- C3: on the mocked three-page category the paginator accumulates exactly
the 6 deduplicated identifiers and requests exactly pages 1, 2, 3 (hence no
request for page 4); and for every API the paginator only ever requests page
numbers between 1 and the absolute safety bound 100. -/
theorem c3_pagination_terminates :
    get_product_variant_ids_from_category mockApi3 =
      ({"a1", "a2", "b1", "b2", "c1", "c2"}, [1, 2, 3]) ∧
    (∀ api : ℕ → Option PageResponse,
      ∀ q ∈ (get_product_variant_ids_from_category api).2, 1 ≤ q ∧ q ≤ 100) := by
  constructor
  · decide
  · intro api q hq
    have hmax : ∀ page : ℕ, page ≤ 100 → max page 100 = 100 := fun page h =>
      Nat.max_eq_right h
    have key : ∀ (fuel page : ℕ) (acc : Finset String) (reqs : List ℕ) (x : ℕ),
        x ∈ (paginateGo api fuel page acc reqs).2 →
        x ∈ reqs ∨ (page ≤ x ∧ x ≤ max page 100) := by
      intro fuel
      induction fuel with
      | zero =>
        intro page acc reqs x h
        exact Or.inl h
      | succ n ih =>
        intro page acc reqs x h
        have hsplit : ∀ hx : x ∈ reqs ++ [page],
            x ∈ reqs ∨ (page ≤ x ∧ x ≤ max page 100) := by
          intro hx
          rcases List.mem_append.mp hx with hx | hx
          · exact Or.inl hx
          · rcases List.mem_singleton.mp hx with rfl
            exact Or.inr ⟨Nat.le_refl x, Nat.le_max_left x 100⟩
        simp only [paginateGo] at h
        split at h
        · exact hsplit h
        · split at h
          · exact hsplit h
          · split at h
            · exact hsplit h
            · split at h
              · exact hsplit h
              · rename_i hstop
                have hlt : page < 100 := by omega
                rcases ih (page + 1) _ _ x h with hx | hx
                · rcases hsplit hx with hx | hx
                  · exact Or.inl hx
                  · exact Or.inr hx
                · rw [hmax (page + 1) (by omega)] at hx
                  rw [hmax page (by omega)]
                  exact Or.inr ⟨by omega, hx.2⟩
    rcases key 100 1 ∅ [] q hq with h | h
    · cases h
    · rw [hmax 1 (by omega)] at h
      exact h

/-- C3 witness: page 1 is requested against the mocked API, and the safety
bound holds for it by the theorem. -/
theorem c3_pagination_terminates_witness :
    1 ∈ (get_product_variant_ids_from_category mockApi3).2 ∧ 1 ≤ 1 ∧ 1 ≤ 100 :=
  ⟨by decide, c3_pagination_terminates.2 mockApi3 1 (by decide)⟩

/-! ## Claim C8: the reconciler is idempotent -/

/-- After one reconciler run, every registry row whose code is in the
destination table carries the metro tag. -/
theorem update_tags_covered (dest : List String) (reg : List RegistryRow) :
    ∀ row ∈ update_food_item_sources dest reg,
      row.code ∈ dest → "metro" ∈ row.sources := by
  intro row hrow hdest
  unfold update_food_item_sources insertNewRows at hrow
  rcases List.mem_append.mp hrow with h | h
  · unfold tagExistingRows at h
    rcases List.mem_map.mp h with ⟨orig, horig, heq⟩
    by_cases hc : orig.code ∈ dest ∧ "metro" ∉ orig.sources
    · rw [if_pos hc] at heq
      rw [← heq]
      simp
    · rw [if_neg hc] at heq
      subst heq
      rcases not_and_or.mp hc with h1 | h2
      · exact absurd hdest h1
      · exact not_not.mp h2
  · rcases List.mem_map.mp h with ⟨c, hcmem, heq⟩
    rw [← heq]
    simp

/-- After one reconciler run, every destination code has a registry row. -/
theorem update_codes_covered (dest : List String) (reg : List RegistryRow) :
    ∀ c ∈ dest, ∃ row ∈ update_food_item_sources dest reg, row.code = c := by
  intro c hc
  unfold update_food_item_sources insertNewRows
  by_cases h : ∀ row ∈ tagExistingRows dest reg, row.code ≠ c
  · refine ⟨{ code := c, sources := ["metro"] }, ?_, rfl⟩
    apply List.mem_append_right
    exact List.mem_map.mpr ⟨c, List.mem_filter.mpr ⟨hc, decide_eq_true h⟩, rfl⟩
  · push_neg at h
    obtain ⟨row, hrow, hcode⟩ := h
    exact ⟨row, List.mem_append_left _ hrow, hcode⟩

/-- C8: running the Registry Reconciler's two set operations a second time
against an unchanged destination table changes zero registry rows — the
already-tagged rows fail the missing-tag guard and the already-inserted codes
fail the no-matching-row guard. -/
theorem c8_reconciler_idempotent (dest : List String) (reg : List RegistryRow) :
    update_food_item_sources dest (update_food_item_sources dest reg) =
      update_food_item_sources dest reg := by
  have htag : tagExistingRows dest (update_food_item_sources dest reg) =
      update_food_item_sources dest reg := by
    unfold tagExistingRows
    have hid : ∀ row ∈ update_food_item_sources dest reg,
        (if row.code ∈ dest ∧ "metro" ∉ row.sources then
          { row with sources := row.sources ++ ["metro"] }
        else row) = row := by
      intro row hrow
      rw [if_neg]
      rintro ⟨h1, h2⟩
      exact h2 (update_tags_covered dest reg row hrow h1)
    rw [List.map_congr_left hid]
    simp
  have hins : insertNewRows dest (update_food_item_sources dest reg) =
      update_food_item_sources dest reg := by
    unfold insertNewRows
    have hfil : dest.filter
        (fun c => decide (∀ row ∈ update_food_item_sources dest reg,
          row.code ≠ c)) = [] := by
      rw [List.filter_eq_nil_iff]
      intro c hc
      obtain ⟨row, hrow, hcode⟩ := update_codes_covered dest reg c hc
      simp only [decide_eq_true_eq]
      intro hall
      exact hall row hrow hcode
    rw [hfil]
    simp
  show insertNewRows dest (tagExistingRows dest (update_food_item_sources dest reg)) =
    update_food_item_sources dest reg
  rw [htag, hins]
/-! ## Claim C9: full-replace semantics of the bulk loader -/

/-- Unfolding one step of the key lookup. -/
theorem findCode_cons (x : FlatProductRecord) (xs : List FlatProductRecord)
    (c : String) :
    List.find? (fun y => y.code == c) (x :: xs) =
      if x.code = c then some x else List.find? (fun y => y.code == c) xs := by
  by_cases h : x.code = c
  · have hb : (x.code == c) = true := beq_iff_eq.mpr h
    simp only [List.find?, hb, if_pos h]
  · have hb : (x.code == c) = false := beq_eq_false_iff_ne.mpr h
    simp only [List.find?, hb, if_neg h]

/-- Replacing the row keyed `r.code` leaves lookups under any other key
unchanged. -/
theorem find_replace_other (t : List FlatProductRecord) (r : FlatProductRecord)
    (c : String) (hne : r.code ≠ c) :
    (t.map (fun x => if x.code = r.code then r else x)).find?
        (fun y => y.code == c) =
      t.find? (fun y => y.code == c) := by
  induction t with
  | nil => rfl
  | cons x xs ih =>
    rw [List.map_cons]
    by_cases hx : x.code = r.code
    · rw [if_pos hx, findCode_cons, findCode_cons]
      rw [if_neg hne, if_neg (by rw [hx]; exact hne)]
      exact ih
    · rw [if_neg hx, findCode_cons, findCode_cons]
      by_cases hc : x.code = c
      · rw [if_pos hc, if_pos hc]
      · rw [if_neg hc, if_neg hc]
        exact ih

/-- When the incoming key `r.code = c` occurs in the table, replacement makes
`r` the row found under `c`. -/
theorem find_replace_hit (t : List FlatProductRecord) (r : FlatProductRecord)
    (c : String) (heq : r.code = c) (hex : ∃ x ∈ t, x.code = r.code) :
    (t.map (fun x => if x.code = r.code then r else x)).find?
        (fun y => y.code == c) = some r := by
  induction t with
  | nil => obtain ⟨x, hx, -⟩ := hex; cases hx
  | cons x xs ih =>
    rw [List.map_cons]
    by_cases hx : x.code = r.code
    · rw [if_pos hx, findCode_cons, if_pos heq]
    · rw [if_neg hx, findCode_cons]
      have hxc : ¬x.code = c := by
        rw [← heq]
        exact hx
      rw [if_neg hxc]
      apply ih
      obtain ⟨y, hy, hyc⟩ := hex
      rcases List.mem_cons.mp hy with rfl | hy
      · exact absurd hyc hx
      · exact ⟨y, hy, hyc⟩

/-- One upsert changes exactly the lookup under the incoming record's key. -/
theorem findCode_upsert (t : List FlatProductRecord) (r : FlatProductRecord)
    (c : String) :
    findCode (upsertRow t r) c = if r.code = c then some r else findCode t c := by
  unfold upsertRow findCode
  by_cases hex : t.any (fun x => x.code == r.code) = true
  · rw [if_pos hex]
    by_cases hrc : r.code = c
    · rw [if_pos hrc]
      apply find_replace_hit t r c hrc
      rcases List.any_eq_true.mp hex with ⟨x, hx, hxc⟩
      exact ⟨x, hx, by simpa using hxc⟩
    · rw [if_neg hrc]
      exact find_replace_other t r c hrc
  · rw [if_neg hex, List.find?_append]
    by_cases hrc : r.code = c
    · rw [if_pos hrc]
      have hnone : t.find? (fun y => y.code == c) = none := by
        rw [List.find?_eq_none]
        intro x hx
        simp only [beq_iff_eq]
        intro hxc
        apply hex
        exact List.any_eq_true.mpr ⟨x, hx, by simp [hxc, hrc]⟩
      rw [hnone, findCode_cons, if_pos hrc]
      rfl
    · rw [if_neg hrc, findCode_cons, if_neg hrc]
      cases t.find? (fun y => y.code == c) <;> rfl

/-- Folding the upserts over any starting table makes the lookup under each
key the last supplied record with that key, falling back to the starting
table. -/
theorem findCode_foldl (records : List FlatProductRecord) :
    ∀ (init : List FlatProductRecord) (c : String),
      findCode (records.foldl upsertRow init) c =
        match findCode records.reverse c with
        | some r => some r
        | none => findCode init c := by
  induction records with
  | nil =>
    intro init c
    rfl
  | cons r rs ih =>
    intro init c
    rw [List.foldl_cons, ih (upsertRow init r) c, List.reverse_cons]
    unfold findCode
    rw [List.find?_append]
    cases hf : List.find? (fun y => y.code == c) rs.reverse with
    | some x => rfl
    | none =>
      have hup := findCode_upsert init r c
      unfold findCode at hup
      rw [hup, findCode_cons]
      by_cases hrc : r.code = c
      · rw [if_pos hrc, if_pos hrc]
        rfl
      · rw [if_neg hrc, if_neg hrc]
        rfl

/-- Upserting preserves distinctness of the natural keys. -/
theorem nodup_upsert (t : List FlatProductRecord) (r : FlatProductRecord)
    (h : (codesOf t).Nodup) : (codesOf (upsertRow t r)).Nodup := by
  unfold codesOf at h
  unfold upsertRow codesOf
  by_cases hex : t.any (fun x => x.code == r.code) = true
  · rw [if_pos hex, List.map_map]
    have hcongr : ∀ x ∈ t,
        ((fun y => y.code) ∘ fun x => if x.code = r.code then r else x) x
          = x.code := by
      intro x hx
      by_cases hxc : x.code = r.code
      · simp only [Function.comp]
        rw [if_pos hxc, hxc]
      · simp only [Function.comp]
        rw [if_neg hxc]
    rw [List.map_congr_left hcongr]
    exact h
  · rw [if_neg hex, List.map_append, List.nodup_append]
    refine ⟨h, List.nodup_singleton _, ?_⟩
    intro a ha hb
    simp only [List.map_cons, List.map_nil, List.mem_singleton] at hb
    subst hb
    rcases List.mem_map.mp ha with ⟨x, hx, hxc⟩
    apply hex
    exact List.any_eq_true.mpr ⟨x, hx, by simp [hxc]⟩

/-- The loaded table always carries pairwise distinct natural keys. -/
theorem nodup_foldl (records : List FlatProductRecord) :
    ∀ init : List FlatProductRecord, (codesOf init).Nodup →
      (codesOf (records.foldl upsertRow init)).Nodup := by
  induction records with
  | nil =>
    intro init h
    exact h
  | cons r rs ih =>
    intro init h
    rw [List.foldl_cons]
    exact ih (upsertRow init r) (nodup_upsert init r h)

/-- C9: after a successful bulk-loader run the destination table holds
exactly the code-keyed records supplied in that run — the result does not
depend on the previous table contents (every pre-existing row is removed
first), the lookup under every key equals the last supplied record with that
key (a within-run key collision overwrites every non-key field with the
incoming record), and keys in the result are pairwise distinct. -/
theorem c9_bulk_load_full_replace (prev prevOther records : List FlatProductRecord)
    (c : String) :
    import_csv_to_metro_source prev records =
      import_csv_to_metro_source prevOther records ∧
    findCode (import_csv_to_metro_source prev records) c =
      findCode records.reverse c ∧
    (codesOf (import_csv_to_metro_source prev records)).Nodup := by
  refine ⟨rfl, ?_, ?_⟩
  · unfold import_csv_to_metro_source clearTable
    rw [findCode_foldl records [] c]
    cases hf : findCode records.reverse c with
    | some x => rfl
    | none => rfl
  · exact nodup_foldl records [] (by simp [codesOf])
